import Mathlib

/-!
# Verification of the media/ML annotations platform

Shallow embedding, in Lean 4, of the pure computational core of the
annotation platform's backend and worker:

* `backend/app/services/quality_metrics.py` — bounding-box IoU, inter-annotator
  agreement metrics, and geometric transforms of annotation geometry;
* `backend/app/dependencies.py` — the project role-hierarchy access check;
* `backend/app/api/search.py` — the hybrid search merge and ranking;
* `backend/app/api/training.py` — cancellation of training jobs;
* `worker/tasks/indexing.py` — text chunking for the text-embedding index;
* `worker/tasks/embedding.py` and `backend/app/services/qdrant_service.py` —
  the CLIP enrichment task against an idempotent vector-point upsert, and the
  per-media sweep deletion.

Python floats are modelled as rationals (`ℚ`), Python dicts keyed by strings
as association lists that preserve insertion order (as CPython dicts do), and
Python exceptions as `Except`.
-/

namespace Platform

/-! ## Quality metrics (`backend/app/services/quality_metrics.py`)

A bounding box is the dict `{"x": …, "y": …, "w": …, "h": …}`; the code reads
every key with `b.get(k, 0)`, so a record of four rationals (missing keys
being `0`) is an exact model. -/

structure BBox where
  x : ℚ
  y : ℚ
  w : ℚ
  h : ℚ
  deriving DecidableEq, Repr

/-- Function `bbox_iou(b1, b2)`: intersection over union, the denominator clamped below
by `1e-6` exactly as in the source. -/
def bbox_iou (b1 b2 : BBox) : ℚ :=
  let x1 := max b1.x b2.x
  let y1 := max b1.y b2.y
  let x2 := min (b1.x + b1.w) (b2.x + b2.w)
  let y2 := min (b1.y + b1.h) (b2.y + b2.h)
  let intersection := max 0 (x2 - x1) * max 0 (y2 - y1)
  let area1 := b1.w * b1.h
  let area2 := b2.w * b2.h
  let union := area1 + area2 - intersection
  intersection / max union (1 / 1000000)

end Platform

namespace Platform

/-! ### Agreement metrics

An annotation dict, restricted to the keys the metrics read: `user_id`,
`label`, `type` and `geometry`.  `geometry` is optional (`None`/missing ⇒
the IoU metric skips the row). -/

structure Ann where
  user_id : String
  label : String
  type : String
  geometry : Option BBox
  deriving DecidableEq, Repr

/-- Insert into a Python `set` modelled as a duplicate-free list. -/
def insertSet (s : List String) (v : String) : List String :=
  if v ∈ s then s else s ++ [v]

/-- Association-list update mirroring `d[k] = f(d.get(k))` on a CPython dict:
an existing key keeps its position, a new key goes to the back. -/
def updAssoc {α : Type} (m : List (String × α)) (k : String) (dflt : α)
    (f : α → α) : List (String × α) :=
  if m.any (fun kv => kv.1 = k) then
    m.map (fun kv => if kv.1 = k then (k, f kv.2) else kv)
  else
    m ++ [(k, f dflt)]

/-- The `by_user` grouping of `compute_label_agreement`: user → set of labels. -/
def byUserLabelSets (anns : List Ann) : List (String × List String) :=
  anns.foldl (fun m a => updAssoc m a.user_id [] (fun s => insertSet s a.label)) []

/-- All ordered pairs `(xs[i], xs[j])` with `i < j`, as produced by the nested
`for i … for j in range(i+1, …)` loops. -/
def allPairs {α : Type} : List α → List (α × α)
  | [] => []
  | x :: xs => (xs.map (fun y => (x, y))) ++ allPairs xs

/-- Size of the intersection of two Python sets (duplicate-free lists). -/
def setInterCard (s t : List String) : ℕ :=
  (s.filter (fun v => v ∈ t)).length

/-- Size of the union of two Python sets (duplicate-free lists). -/
def setUnionCard (s t : List String) : ℕ :=
  (s ++ t.filter (fun v => v ∉ s)).length

/-- Function `compute_label_agreement(annotations)`: mean Jaccard similarity of label
sets over all unordered pairs of annotators; `1.0` below two annotators. -/
def compute_label_agreement (anns : List Ann) : ℚ :=
  let by_user := byUserLabelSets anns
  let users := by_user.map Prod.snd
  if users.length < 2 then 1
  else
    let pairs := allPairs users
    let agreements := (pairs.map (fun p =>
      (setInterCard p.1 p.2 : ℚ) / max (setUnionCard p.1 p.2 : ℚ) 1)).sum
    let total := (pairs.length : ℚ)
    agreements / max total 1

/-- The `bboxes_by_user` grouping of `compute_iou_agreement`: only annotations of
type `"bbox"` with a (truthy) geometry are kept. -/
def bboxesByUser (anns : List Ann) : List (String × List BBox) :=
  anns.foldl (fun m a =>
    match a.geometry with
    | none => m
    | some g => if a.type = "bbox" then updAssoc m a.user_id [] (fun l => l ++ [g]) else m) []

/-- Function `compute_iou_agreement(annotations)`: mean pairwise IoU across annotator
pairs and their box pairs; `1.0` below two annotators (after filtering). -/
def compute_iou_agreement (anns : List Ann) : ℚ :=
  let by_user := bboxesByUser anns
  let users := by_user.map Prod.snd
  if users.length < 2 then 1
  else
    let contribs := (allPairs users).map (fun p =>
      ((p.1.product p.2).map (fun bb => bbox_iou bb.1 bb.2)).sum)
    let counts := (allPairs users).map (fun p => p.1.length * p.2.length)
    let total_iou := contribs.sum
    let count := ((counts.sum : ℕ) : ℚ)
    total_iou / max count 1

/-- Insertion sort on strings, the order Python's `sorted` gives on `str`. -/
def insertSorted (v : String) : List String → List String
  | [] => [v]
  | x :: xs => if v ≤ x then v :: x :: xs else x :: insertSorted v xs

/-- Python's `sorted` on a list of strings. -/
def pySorted (l : List String) : List String :=
  l.foldr insertSorted []

/-- The `by_user` grouping of `compute_percent_agreement`: user → list of labels. -/
def byUserLabelLists (anns : List Ann) : List (String × List String) :=
  anns.foldl (fun m a => updAssoc m a.user_id [] (fun l => l ++ [a.label])) []

/-- Function `compute_percent_agreement(annotations)`: fraction of annotator pairs whose
sorted label multisets coincide; `1.0` below two annotators. -/
def compute_percent_agreement (anns : List Ann) : ℚ :=
  let by_user := byUserLabelLists anns
  let users := by_user.map Prod.snd
  if users.length < 2 then 1
  else
    let pairs := allPairs users
    let agreements := (pairs.map (fun p =>
      if pySorted p.1 = pySorted p.2 then (1 : ℚ) else 0)).sum
    let total := (pairs.length : ℚ)
    agreements / max total 1

end Platform

namespace Platform

/-! ### `transform_geometry`

Geometry dicts restricted to the keys the function touches; `dict(geometry)`
copies everything else unchanged, so omitted keys cannot affect the claims
below.  Polygon points are 2-D coordinates.  A transform dict `t` is read
through its type tag and, for scaling, its factor. -/

structure Geom where
  x : Option ℚ
  y : Option ℚ
  w : Option ℚ
  h : Option ℚ
  points : Option (List (ℚ × ℚ))
  deriving DecidableEq, Repr

inductive Transform where
  | horizontal_flip : Transform
  | vertical_flip : Transform
  | scale (factor : ℚ) : Transform
  deriving DecidableEq, Repr

/-- One iteration of the transform loop of `transform_geometry`. -/
def applyTransform (width height : ℚ) (ann_type : String) (geom : Geom)
    (t : Transform) : Geom :=
  match t with
  | .horizontal_flip =>
    if ann_type = "bbox" then
      match geom.x, geom.w with
      | some gx, some gw => { geom with x := some (width - gx - gw) }
      | _, _ => geom
    else if ann_type = "point" then
      match geom.x with
      | some gx => { geom with x := some (width - gx) }
      | none => geom
    else if ann_type = "polygon" then
      match geom.points with
      | some ps => { geom with points := some (ps.map (fun p => (width - p.1, p.2))) }
      | none => geom
    else geom
  | .vertical_flip =>
    if ann_type = "bbox" then
      match geom.y, geom.h with
      | some gy, some gh => { geom with y := some (height - gy - gh) }
      | _, _ => geom
    else if ann_type = "point" then
      match geom.y with
      | some gy => { geom with y := some (height - gy) }
      | none => geom
    else if ann_type = "polygon" then
      match geom.points with
      | some ps => { geom with points := some (ps.map (fun p => (p.1, height - p.2))) }
      | none => geom
    else geom
  | .scale factor =>
    if ann_type = "bbox" then
      { geom with
        x := geom.x.map (· * factor), y := geom.y.map (· * factor),
        w := geom.w.map (· * factor), h := geom.h.map (· * factor) }
    else if ann_type = "point" then
      { geom with x := geom.x.map (· * factor), y := geom.y.map (· * factor) }
    else if ann_type = "polygon" then
      match geom.points with
      | some ps => { geom with points := some (ps.map (fun p => (p.1 * factor, p.2 * factor))) }
      | none => geom
    else geom

/-- Function `transform_geometry(geometry, ann_type, transforms, width, height)`:
left-to-right application of the transform list. -/
def transform_geometry (geometry : Geom) (ann_type : String)
    (transforms : List Transform) (width height : ℚ) : Geom :=
  transforms.foldl (applyTransform width height ann_type) geometry

end Platform

namespace Platform

/-! ## Role-gated project access (`backend/app/dependencies.py`) -/

inductive ProjectRole where
  | OWNER : ProjectRole
  | ADMIN : ProjectRole
  | EDITOR : ProjectRole
  | VIEWER : ProjectRole
  deriving DecidableEq, Repr

/-- The role hierarchy table built in the constructor of `ProjectAccess`. -/
def roleRank : ProjectRole → ℕ
  | .OWNER => 0
  | .ADMIN => 1
  | .EDITOR => 2
  | .VIEWER => 3

/-- State the access dependency observes for one request: whether the caller
is a superuser, whether the project row exists, and the caller's membership
role in it (if any). -/
structure AccessCtx where
  is_superuser : Bool
  project_exists : Bool
  membership : Option ProjectRole
  deriving DecidableEq, Repr

/-- The call method of `ProjectAccess` with `min_role`: either an HTTP error
status or the returned role.  Superusers bypass the check (getting `OWNER`);
members are rejected with 403 when their rank is strictly greater than the
minimum role's. -/
def projectAccessCall (min_role : ProjectRole) (ctx : AccessCtx) :
    Except ℕ ProjectRole :=
  if ctx.is_superuser then
    if ctx.project_exists then .ok .OWNER else .error 404
  else
    match ctx.membership with
    | none => .error 404
    | some role =>
      if roleRank role > roleRank min_role then .error 403
      else .ok role

end Platform

namespace Platform

/-! ## Cancelling a training job (`backend/app/api/training.py`) -/

inductive TrainingStatus where
  | QUEUED | PREPARING | TRAINING | EVALUATING | COMPLETED | FAILED | CANCELLED
  deriving DecidableEq, Repr

/-- Handler `cancel_training_job` on a looked-up job (`none` = no row matched):
returns the HTTP error status or the success payload, paired with the job's
status after the handler ran. -/
def cancel_training_job (job : Option TrainingStatus) :
    Except ℕ String × Option TrainingStatus :=
  match job with
  | none => (.error 404, none)
  | some st =>
    if st = .COMPLETED ∨ st = .FAILED ∨ st = .CANCELLED then
      (.error 400, some st)
    else
      (.ok "cancelled", some .CANCELLED)

end Platform

namespace Platform

/-! ## Vector store (`backend/app/services/qdrant_service.py`) -/

/-- The three collection names from `config.py`. -/
def QDRANT_COLLECTION_CLIP : String := "clip_embeddings"

def QDRANT_COLLECTION_DINO : String := "dino_embeddings"

def QDRANT_COLLECTION_TEXT : String := "text_embeddings"

/-- Function `delete_by_media_id`: sweep over the three collections; `delete c` is the
outcome of the client delete on collection `c` (`.error` = it raised).  The
`try/except` around each call makes both outcomes continue the loop, so the
result records every collection that was attempted and the function itself
never propagates an error. -/
def sweepDelete (delete : String → Except String Unit) :
    List String → List String
  | [] => []
  | c :: rest =>
    match delete c with
    | .ok _ => c :: sweepDelete delete rest
    | .error _ => c :: sweepDelete delete rest

/-- Function `delete_by_media_id(media_id)` as the sweep over the fixed collection
list; the returned list is the collections on which deletion was attempted
(the call always reaches the end of the loop and returns normally). -/
def delete_by_media_id (delete : String → Except String Unit) : List String :=
  sweepDelete delete
    [QDRANT_COLLECTION_CLIP, QDRANT_COLLECTION_DINO, QDRANT_COLLECTION_TEXT]

end Platform

namespace Platform

/-! ## Hybrid search merge (`backend/app/api/search.py`, `search_media`)

Each Qdrant hit is a dict `{point_id, score, media_id, …payload}`; the merged
map `all_results` is a CPython dict keyed by `media_id` (insertion-ordered),
whose values carry the winning hit plus a `match_source` tag. -/

structure Hit where
  point_id : String
  media_id : String
  score : ℚ
  deriving DecidableEq, Repr

structure Entry where
  point_id : String
  media_id : String
  score : ℚ
  match_source : String
  deriving DecidableEq, Repr

/-- The `all_results[mid]` lookup. -/
def lookupRes (m : List (String × Entry)) (k : String) : Option Entry :=
  (m.find? (fun kv => kv.1 = k)).map Prod.snd

/-- Assignment `all_results[mid] = e`: replace in place, else append (CPython dict). -/
def setRes (m : List (String × Entry)) (k : String) (e : Entry) :
    List (String × Entry) :=
  if m.any (fun kv => kv.1 = k) then
    m.map (fun kv => if kv.1 = k then (k, e) else kv)
  else
    m ++ [(k, e)]

/-- One iteration of the CLIP-text merge loop: keep the better score, tag
`"clip"`. -/
def clipStep (m : List (String × Entry)) (r : Hit) : List (String × Entry) :=
  match lookupRes m r.media_id with
  | none => setRes m r.media_id ⟨r.point_id, r.media_id, r.score, "clip"⟩
  | some e =>
    if r.score > e.score then
      setRes m r.media_id ⟨r.point_id, r.media_id, r.score, "clip"⟩
    else m

/-- The CLIP-text branch merge (`for r in clip_results`). -/
def mergeClip (m : List (String × Entry)) (rs : List Hit) :
    List (String × Entry) :=
  rs.foldl clipStep m

/-- One iteration of the TEXT-text merge loop: a new or strictly better hit
replaces the entry tagged `"text"`; otherwise the existing entry is boosted to
`max(existing.score, hit.score) × 1.1` and tagged `"hybrid"`. -/
def textStep (m : List (String × Entry)) (r : Hit) : List (String × Entry) :=
  match lookupRes m r.media_id with
  | none => setRes m r.media_id ⟨r.point_id, r.media_id, r.score, "text"⟩
  | some e =>
    if r.score > e.score then
      setRes m r.media_id ⟨r.point_id, r.media_id, r.score, "text"⟩
    else
      setRes m r.media_id
        { e with score := max e.score r.score * (11 / 10), match_source := "hybrid" }

/-- The TEXT-text branch merge (`for r in text_results`). -/
def mergeText (m : List (String × Entry)) (rs : List Hit) :
    List (String × Entry) :=
  rs.foldl textStep m

/-- Python `sorted(…, key=lambda x: x["score"], reverse=True)` is a *stable*
descending sort: insert before the first element of not-greater score. -/
def sortStep (e : Entry) : List Entry → List Entry
  | [] => [e]
  | x :: xs => if x.score ≤ e.score then e :: x :: xs else x :: sortStep e xs

/-- Python's stable sort by score descending. -/
def pySortDesc (l : List Entry) : List Entry :=
  l.foldr sortStep []

/-- Final ranking of `search_media`: sort the merged values by score
descending (stable) and slice `[offset : offset + limit]`. -/
def rankResults (m : List (String × Entry)) (offset limit : ℕ) : List Entry :=
  ((pySortDesc (m.map Prod.snd)).drop offset).take limit

end Platform

namespace Platform

/-! ## Text chunking (`worker/tasks/indexing.py`, `_chunk_text`)

Strings are lists of characters; `text.replace("\n", " ")`, `split(". ")`,
`strip()` and slicing are modelled on `List Char`. -/

/-- Python `text.replace("\n", " ")`, one character at a time. -/
def replNl (c : Char) : Char :=
  if c = '\n' then ' ' else c

/-- Python `str.split(". ")`: non-overlapping, left to right. -/
def splitDotSpace : List Char → List (List Char)
  | [] => [[]]
  | '.' :: ' ' :: rest => [] :: splitDotSpace rest
  | c :: rest =>
    match splitDotSpace rest with
    | [] => [[c]]
    | h :: t => (c :: h) :: t

/-- The whitespace set of Python `str.strip()` (ASCII part). -/
def pyIsSpace (c : Char) : Bool :=
  c = ' ' || c = '\t' || c = '\n' || c = '\r' || c = '\x0b' || c = '\x0c'

/-- Python `str.strip()`. -/
def pyStrip (l : List Char) : List Char :=
  (((l.dropWhile pyIsSpace).reverse).dropWhile pyIsSpace).reverse

/-- One iteration of the sentence loop of `_chunk_text`, on the state
`(chunks, current)`. -/
def chunkStep (maxLen : ℕ) (st : List (List Char) × List Char)
    (s : List Char) : List (List Char) × List Char :=
  if maxLen < st.2.length + s.length + 2 then
    (if st.2 ≠ [] then st.1 ++ [pyStrip st.2] else st.1, s)
  else
    (st.1, if st.2 ≠ [] then st.2 ++ ('.' :: ' ' :: s) else s)

/-- Function `_chunk_text(text, max_length)`. -/
def _chunk_text (text : List Char) (maxLen : ℕ) : List (List Char) :=
  if text.length ≤ maxLen then [text]
  else
    let sentences := splitDotSpace (text.map replNl)
    let res := sentences.foldl (chunkStep maxLen) ([], [])
    let chunks := if pyStrip res.2 ≠ [] then res.1 ++ [pyStrip res.2] else res.1
    if chunks ≠ [] then chunks else [text.take maxLen]

/-- Length of the longest sentence `_chunk_text` works on. -/
def maxSentenceLen (text : List Char) : ℕ :=
  ((splitDotSpace (text.map replNl)).map List.length).foldr max 0

end Platform

namespace Platform

/-! ## CLIP enrichment task (`worker/tasks/embedding.py`,
`run_clip_embedding`) against `upsert_embedding` of the qdrant service. -/

structure VPoint where
  vector : List ℚ
  payload_media_id : String
  payload_project_id : String
  payload_media_type : String
  deriving DecidableEq, Repr

/-- Function `upsert_embedding(collection, point_id, vector, payload)`: last-writer-wins
on `point_id` — replace the stored point if the id exists, else append. -/
def upsert_embedding (coll : List (String × VPoint)) (point_id : String)
    (p : VPoint) : List (String × VPoint) :=
  if coll.any (fun kv => kv.1 = point_id) then
    coll.map (fun kv => if kv.1 = point_id then (point_id, p) else kv)
  else
    coll ++ [(point_id, p)]

/-- The media row fields the task touches (`clip_embedding_id`) and, opaquely,
every other non-timestamp column (`rest`), which the task leaves alone. -/
structure MediaRow where
  clip_embedding_id : Option String
  rest : List (String × String)
  deriving DecidableEq, Repr

/-- Function `_update_media_embedding(media_id, clip_embedding_id=point_id)`. -/
def _update_media_embedding (m : MediaRow) (clipId : String) : MediaRow :=
  { m with clip_embedding_id := some clipId }

/-- Stores visible to the CLIP task: the CLIP collection and the media row. -/
structure ClipTaskState where
  clip_collection : List (String × VPoint)
  media : MediaRow
  deriving DecidableEq, Repr

/-- Function `run_clip_embedding(media_id, project_id, storage_path, media_type)`.
`encode_image`/`encode_video` stand for `encoder.encode_image_bytes ∘
download_media` and `_embed_video_frame ∘ download_media`: deterministic
functions of the stored object.  Returns the new state and the task status. -/
def run_clip_embedding (encode_image encode_video : String → List ℚ)
    (media_id project_id storage_path media_type : String)
    (st : ClipTaskState) : ClipTaskState × String :=
  if media_type = "image" ∨ media_type = "video" then
    let embedding :=
      if media_type = "image" then encode_image storage_path
      else encode_video storage_path
    let point_id := "clip_" ++ media_id
    let coll := upsert_embedding st.clip_collection point_id
      ⟨embedding, media_id, project_id, media_type⟩
    let media := _update_media_embedding st.media point_id
    ({ clip_collection := coll, media := media }, "ok")
  else
    (st, "skipped")

end Platform

namespace Platform

/-! ## Theorems -/

/-- C5 (counterexample): the claim "bbox_iou(a,a) = 1.0 for every box with
w ≥ 0 and h ≥ 0" fails at the degenerate box `{x:0, y:0, w:0, h:0}`, where the
clamped denominator `max(union, 1e-6) = 1e-6` makes the self-IoU `0`. -/
theorem bbox_iou_self_counterexample :
    ¬ (∀ a : BBox, 0 ≤ a.w → 0 ≤ a.h → bbox_iou a a = 1) := by
  intro hall
  have h := hall ⟨0, 0, 0, 0⟩ le_rfl le_rfl
  simp [bbox_iou] at h

/-- C5 (amended): for a box with nonnegative width and height whose area is at
least the clamp `1e-6`, `bbox_iou(a, a) = 1.0` exactly. -/
theorem bbox_iou_self_eq_one (a : BBox) (hw : 0 ≤ a.w) (hh : 0 ≤ a.h)
    (harea : 1 / 1000000 ≤ a.w * a.h) : bbox_iou a a = 1 := by
  have hpos : 0 < a.w * a.h := lt_of_lt_of_le (by norm_num) harea
  unfold bbox_iou
  simp only [max_self, min_self, add_sub_cancel_left]
  rw [max_eq_right hw, max_eq_right hh]
  have hunion : a.w * a.h + a.w * a.h - a.w * a.h = a.w * a.h := by ring
  rw [hunion, max_eq_left harea, div_self (ne_of_gt hpos)]

/-- C5 witness: the amended theorem applied to the unit box at the origin. -/
theorem bbox_iou_self_eq_one_witness : bbox_iou ⟨0, 0, 1, 1⟩ ⟨0, 0, 1, 1⟩ = 1 :=
  bbox_iou_self_eq_one ⟨0, 0, 1, 1⟩ (by norm_num) (by norm_num) (by norm_num)

/-- C6: for a non-superuser caller with membership role `role`, the access
check with minimum role `min_role` returns the role iff
`rank(role) ≤ rank(min_role)`, and rejects with 403 iff the rank is strictly
greater (ranks: OWNER 0, ADMIN 1, EDITOR 2, VIEWER 3). -/
theorem projectAccess_role_hierarchy (min_role role : ProjectRole)
    (ctx : AccessCtx) (hs : ctx.is_superuser = false)
    (hm : ctx.membership = some role) :
    (projectAccessCall min_role ctx = .ok role ↔
      roleRank role ≤ roleRank min_role) ∧
    (projectAccessCall min_role ctx = .error 403 ↔
      roleRank min_role < roleRank role) := by
  unfold projectAccessCall
  rw [hs, hm]
  simp only [Bool.false_eq_true, if_false]
  constructor
  · constructor
    · intro h
      by_contra hlt
      rw [if_pos (lt_of_not_le hlt)] at h
      exact absurd h (by simp)
    · intro h
      rw [if_neg (not_lt_of_le h)]
  · constructor
    · intro h
      by_contra hle
      rw [if_neg (fun hgt => hle hgt)] at h
      exact absurd h (by simp)
    · intro h
      rw [if_pos h]

/-- C6 witness: a viewer is rejected with 403 from an editor-gated endpoint. -/
theorem projectAccess_role_hierarchy_witness :
    projectAccessCall .EDITOR ⟨false, true, some .VIEWER⟩ = .error 403 :=
  ((projectAccess_role_hierarchy .EDITOR .VIEWER
    ⟨false, true, some .VIEWER⟩ rfl rfl).2).mpr (by decide)

/-- C7: when the per-metric grouping keeps fewer than two distinct annotators,
each agreement metric returns exactly `1.0`. -/
theorem agreement_single_annotator (anns : List Ann)
    (h1 : (byUserLabelSets anns).length < 2)
    (h2 : (bboxesByUser anns).length < 2)
    (h3 : (byUserLabelLists anns).length < 2) :
    compute_label_agreement anns = 1 ∧ compute_iou_agreement anns = 1 ∧
      compute_percent_agreement anns = 1 := by
  unfold compute_label_agreement compute_iou_agreement compute_percent_agreement
  simp only [List.length_map]
  rw [if_pos h1, if_pos h2, if_pos h3]
  exact ⟨rfl, rfl, rfl⟩

/-- C7 witness: one annotator with one bbox annotation. -/
theorem agreement_single_annotator_witness :
    compute_label_agreement [⟨"u1", "cat", "bbox", some ⟨0, 0, 1, 1⟩⟩] = 1 ∧
    compute_iou_agreement [⟨"u1", "cat", "bbox", some ⟨0, 0, 1, 1⟩⟩] = 1 ∧
    compute_percent_agreement [⟨"u1", "cat", "bbox", some ⟨0, 0, 1, 1⟩⟩] = 1 :=
  agreement_single_annotator _ (by decide) (by decide) (by decide)

/-- C4 (counterexample): cancelling a COMPLETED job is rejected with HTTP 400
(Bad Request), not the 409 (Conflict) the claim states; the status is left
unchanged. -/
theorem cancel_terminal_counterexample :
    cancel_training_job (some .COMPLETED) = (.error 400, some .COMPLETED) ∧
      (400 : ℕ) ≠ 409 :=
  ⟨rfl, by decide⟩

/-- C4 (amended): cancellation succeeds (status becomes CANCELLED) iff the job
is in a non-terminal state; in a terminal state (COMPLETED, FAILED, CANCELLED)
it fails with HTTP **400** and the stored status is unchanged. -/
theorem cancel_training_job_spec (st : TrainingStatus) :
    ((cancel_training_job (some st)).1.isOk = true ↔
      ¬ (st = .COMPLETED ∨ st = .FAILED ∨ st = .CANCELLED)) ∧
    (¬ (st = .COMPLETED ∨ st = .FAILED ∨ st = .CANCELLED) →
      cancel_training_job (some st) = (.ok "cancelled", some .CANCELLED)) ∧
    ((st = .COMPLETED ∨ st = .FAILED ∨ st = .CANCELLED) →
      cancel_training_job (some st) = (.error 400, some st)) := by
  cases st <;> simp [cancel_training_job, Except.isOk, Except.toBool]

/-- C4 witness: a QUEUED job cancels; a FAILED job is rejected with 400. -/
theorem cancel_training_job_spec_witness :
    cancel_training_job (some .QUEUED) = (.ok "cancelled", some .CANCELLED) ∧
    cancel_training_job (some .FAILED) = (.error 400, some .FAILED) :=
  ⟨(cancel_training_job_spec .QUEUED).2.1 (by decide),
   (cancel_training_job_spec .FAILED).2.2 (by decide)⟩

/-- The sweep visits the whole collection list whatever the per-collection
outcomes are: the `try/except` body continues on both success and error. -/
theorem sweepDelete_attempts_all (delete : String → Except String Unit)
    (cols : List String) : sweepDelete delete cols = cols := by
  induction cols with
  | nil => rfl
  | cons c rest ih =>
    unfold sweepDelete
    cases delete c <;> simp [ih]

/-- C9: for every assignment of outcomes (success or raised error) to the
per-collection deletes, `delete_by_media_id` attempts the deletion on all
three collections — CLIP, DINO, TEXT — and returns normally. -/
theorem delete_by_media_id_total (delete : String → Except String Unit) :
    delete_by_media_id delete =
      [QDRANT_COLLECTION_CLIP, QDRANT_COLLECTION_DINO, QDRANT_COLLECTION_TEXT] :=
  sweepDelete_attempts_all delete _

end Platform

namespace Platform

/-- Flipping a horizontal coordinate twice restores a polygon point list. -/
theorem map_hflip_hflip (w : ℚ) (ps : List (ℚ × ℚ)) :
    List.map ((fun p : ℚ × ℚ => (w - p.1, p.2)) ∘ fun p : ℚ × ℚ => (w - p.1, p.2)) ps = ps := by
  induction ps with
  | nil => rfl
  | cons p rest ih =>
    simp only [List.map_cons, ih, List.cons.injEq, and_true, Function.comp]
    exact Prod.ext (by ring) rfl

/-- Flipping a vertical coordinate twice restores a polygon point list. -/
theorem map_vflip_vflip (h : ℚ) (ps : List (ℚ × ℚ)) :
    List.map ((fun p : ℚ × ℚ => (p.1, h - p.2)) ∘ fun p : ℚ × ℚ => (p.1, h - p.2)) ps = ps := by
  induction ps with
  | nil => rfl
  | cons p rest ih =>
    simp only [List.map_cons, ih, List.cons.injEq, and_true, Function.comp]
    exact Prod.ext rfl (by ring)

/-- Applying `horizontal_flip` twice is the identity, for every annotation
type string (unknown types are untouched). -/
theorem applyTransform_hflip_involutive (w h : ℚ) (ty : String) (g : Geom) :
    applyTransform w h ty (applyTransform w h ty g .horizontal_flip)
      .horizontal_flip = g := by
  unfold applyTransform
  by_cases hb : ty = "bbox"
  · simp only [hb, if_true]
    obtain ⟨gx, gy, gw, gh, gp⟩ := g
    cases gx <;> cases gw <;> simp <;> ring
  · by_cases hp : ty = "point"
    · simp only [hb, hp, if_false, if_true]
      obtain ⟨gx, gy, gw, gh, gp⟩ := g
      cases gx <;> simp
    · by_cases hg : ty = "polygon"
      · simp only [hb, hp, hg, if_false, if_true]
        obtain ⟨gx, gy, gw, gh, gp⟩ := g
        cases gp <;> simp [List.map_map, map_hflip_hflip]
      · simp [hb, hp, hg]

/-- Applying `vertical_flip` twice is the identity, for every annotation
type string. -/
theorem applyTransform_vflip_involutive (w h : ℚ) (ty : String) (g : Geom) :
    applyTransform w h ty (applyTransform w h ty g .vertical_flip)
      .vertical_flip = g := by
  unfold applyTransform
  by_cases hb : ty = "bbox"
  · simp only [hb, if_true]
    obtain ⟨gx, gy, gw, gh, gp⟩ := g
    cases gy <;> cases gh <;> simp <;> ring
  · by_cases hp : ty = "point"
    · simp only [hb, hp, if_false, if_true]
      obtain ⟨gx, gy, gw, gh, gp⟩ := g
      cases gy <;> simp
    · by_cases hg : ty = "polygon"
      · simp only [hb, hp, hg, if_false, if_true]
        obtain ⟨gx, gy, gw, gh, gp⟩ := g
        cases gp <;> simp [List.map_map, map_vflip_vflip]
      · simp [hb, hp, hg]

/-- C10: for bbox, point and polygon geometries alike, the transform lists
`[horizontal_flip, horizontal_flip]` and `[vertical_flip, vertical_flip]`
applied by `transform_geometry` return the input geometry: each flip is an
involution under left-to-right composition. -/
theorem transform_geometry_double_flip (g : Geom) (w h : ℚ) :
    transform_geometry g "bbox" [.horizontal_flip, .horizontal_flip] w h = g ∧
    transform_geometry g "point" [.horizontal_flip, .horizontal_flip] w h = g ∧
    transform_geometry g "polygon" [.horizontal_flip, .horizontal_flip] w h = g ∧
    transform_geometry g "bbox" [.vertical_flip, .vertical_flip] w h = g ∧
    transform_geometry g "point" [.vertical_flip, .vertical_flip] w h = g ∧
    transform_geometry g "polygon" [.vertical_flip, .vertical_flip] w h = g := by
  unfold transform_geometry
  simp only [List.foldl_cons, List.foldl_nil]
  exact ⟨applyTransform_hflip_involutive w h "bbox" g,
    applyTransform_hflip_involutive w h "point" g,
    applyTransform_hflip_involutive w h "polygon" g,
    applyTransform_vflip_involutive w h "bbox" g,
    applyTransform_vflip_involutive w h "point" g,
    applyTransform_vflip_involutive w h "polygon" g⟩

end Platform

namespace Platform

/-- C1 (counterexample): CLIP-text finds media `"m"` with score `0.5`; the
TEXT-text branch then finds it with the *larger* score `0.6`.  The merge
replaces the entry with the text hit — score `0.6`, source `"text"` — instead
of boosting to `max(0.5, 0.6) × 1.1 = 0.66` with source `"hybrid"`. -/
theorem hybrid_boost_counterexample :
    lookupRes (mergeText (mergeClip [] [⟨"p1", "m", 1/2⟩]) [⟨"p2", "m", 3/5⟩]) "m" =
      some ⟨"p2", "m", 3/5, "text"⟩ ∧
    (3/5 : ℚ) ≠ max (1/2) (3/5) * (11/10) ∧ ("text" : String) ≠ "hybrid" := by
  refine ⟨?_, by norm_num, by decide⟩
  have hclip : mergeClip [] [⟨"p1", "m", 1/2⟩] = [("m", ⟨"p1", "m", 1/2, "clip"⟩)] := by
    simp [mergeClip, clipStep, lookupRes, setRes]
  rw [mergeText, List.foldl_cons, List.foldl_nil, hclip, textStep]
  have hlook : lookupRes [("m", (⟨"p1", "m", 1/2, "clip"⟩ : Entry))] "m" =
      some ⟨"p1", "m", 1/2, "clip"⟩ := by simp [lookupRes]
  rw [hlook]
  norm_num [setRes, lookupRes]

/-- C1 (amended): when a media id is produced by the CLIP-text branch with
score `s1` and then by the TEXT-text branch with score `s2`, the merged entry
is boosted to `max(s1, s2) × 1.1` with source `"hybrid"` only when `s2 ≤ s1`;
when `s2 > s1` the first condition of the loop wins and the entry is replaced
by the text hit with score `s2` and source `"text"`. -/
theorem hybrid_merge_both_branches (p1 p2 m : String) (s1 s2 : ℚ) :
    lookupRes (mergeText (mergeClip [] [⟨p1, m, s1⟩]) [⟨p2, m, s2⟩]) m =
      some (if s1 < s2 then ⟨p2, m, s2, "text"⟩
            else ⟨p1, m, max s1 s2 * (11/10), "hybrid"⟩) := by
  have hclip : mergeClip [] [⟨p1, m, s1⟩] = [(m, ⟨p1, m, s1, "clip"⟩)] := by
    simp [mergeClip, clipStep, lookupRes, setRes]
  rw [mergeText, List.foldl_cons, List.foldl_nil, hclip]
  have hlook : lookupRes [(m, ⟨p1, m, s1, "clip"⟩)] m = some ⟨p1, m, s1, "clip"⟩ := by
    simp [lookupRes]
  rw [textStep]
  rw [hlook]
  by_cases hlt : s1 < s2
  · simp only [hlt, if_pos hlt, gt_iff_lt, if_true]
    simp [setRes, lookupRes]
  · simp only [gt_iff_lt, hlt, if_false]
    simp [setRes, lookupRes]

end Platform

namespace Platform

/-- C3 (counterexample): two merged results with equal score `1`, inserted
with point ids `"pb"` then `"pa"`.  A (score desc, point_id asc) order would
put `"pa"` first, but the code's stable sort keeps insertion order, returning
`"pb"` first. -/
theorem ranking_tiebreak_counterexample :
    rankResults (mergeClip [] [⟨"pb", "m1", 1⟩, ⟨"pa", "m2", 1⟩]) 0 10 =
      [⟨"pb", "m1", 1, "clip"⟩, ⟨"pa", "m2", 1, "clip"⟩] ∧
    ("pa" : String) < "pb" := by
  constructor
  · have hmerge : mergeClip [] [⟨"pb", "m1", 1⟩, ⟨"pa", "m2", 1⟩] =
        [("m1", ⟨"pb", "m1", 1, "clip"⟩), ("m2", ⟨"pa", "m2", 1, "clip"⟩)] := by
      simp [mergeClip, clipStep, lookupRes, setRes]
    rw [rankResults, hmerge]
    simp [pySortDesc, sortStep]
  · rw [String.lt_iff_toList_lt]
    decide

/-- Inserting into the stable descending sort keeps per-score subsequences:
the elements skipped over have strictly larger score than the inserted one. -/
theorem sortStep_filter_score (e : Entry) (l : List Entry) (s : ℚ) :
    (sortStep e l).filter (fun x => x.score = s) =
      (e :: l).filter (fun x => x.score = s) := by
  induction l with
  | nil => rfl
  | cons x xs ih =>
    unfold sortStep
    by_cases hxe : x.score ≤ e.score
    · rw [if_pos hxe]
    · rw [if_neg hxe]
      by_cases hx : x.score = s
      · have he : ¬ e.score = s := fun he' => hxe (le_of_eq (hx.trans he'.symm))
        simp [List.filter_cons, ih, hx, he]
      · simp [List.filter_cons, ih, hx]

/-- The stable insertion is a permutation of consing. -/
theorem sortStep_perm (e : Entry) (l : List Entry) :
    (sortStep e l).Perm (e :: l) := by
  induction l with
  | nil => exact List.Perm.refl _
  | cons x xs ih =>
    unfold sortStep
    by_cases hxe : x.score ≤ e.score
    · rw [if_pos hxe]
    · rw [if_neg hxe]
      exact (ih.cons x).trans (List.Perm.swap e x xs)

/-- The stable insertion preserves descending sortedness by score. -/
theorem sortStep_pairwise (e : Entry) (l : List Entry)
    (hl : l.Pairwise (fun a b => b.score ≤ a.score)) :
    (sortStep e l).Pairwise (fun a b => b.score ≤ a.score) := by
  induction l with
  | nil => simp [sortStep]
  | cons x xs ih =>
    unfold sortStep
    rcases List.pairwise_cons.mp hl with ⟨hx, hxs⟩
    by_cases hxe : x.score ≤ e.score
    · rw [if_pos hxe]
      refine List.pairwise_cons.mpr ⟨?_, hl⟩
      intro y hy
      rcases List.mem_cons.mp hy with rfl | hy
      · exact hxe
      · exact le_trans (hx y hy) hxe
    · rw [if_neg hxe]
      refine List.pairwise_cons.mpr ⟨?_, ih hxs⟩
      intro y hy
      have hy' := (sortStep_perm e xs).mem_iff.mp hy
      rcases List.mem_cons.mp hy' with rfl | hy''
      · exact le_of_lt (lt_of_not_le hxe)
      · exact hx y hy''

/-- C3 (amended): the ranking is the stable descending sort of the merged
map's values, sliced at `[offset : offset+limit]`.  For identical inputs the
order is fully determined — sorted by score descending — but equal scores keep
the merged map's insertion order (Python's `sorted` is stable); `point_id` is
not consulted.  The three conjuncts pin the sort down completely: it permutes
the input, scores descend, and each equal-score subsequence is preserved. -/
theorem ranking_stable_sort (m : List (String × Entry)) (offset limit : ℕ)
    (l : List Entry) :
    rankResults m offset limit =
      ((pySortDesc (m.map Prod.snd)).drop offset).take limit ∧
    (pySortDesc l).Perm l ∧
    (pySortDesc l).Pairwise (fun a b => b.score ≤ a.score) ∧
    (∀ s : ℚ, (pySortDesc l).filter (fun x => x.score = s) =
      l.filter (fun x => x.score = s)) := by
  refine ⟨rfl, ?_, ?_, ?_⟩
  · induction l with
    | nil => exact List.Perm.refl _
    | cons x xs ih => exact (sortStep_perm x (pySortDesc xs)).trans (ih.cons x)
  · induction l with
    | nil => simp [pySortDesc]
    | cons x xs ih => exact sortStep_pairwise x (pySortDesc xs) ih
  · intro s
    induction l with
    | nil => rfl
    | cons x xs ih =>
      rw [show pySortDesc (x :: xs) = sortStep x (pySortDesc xs) from rfl]
      rw [sortStep_filter_score x (pySortDesc xs) s]
      simp only [List.filter_cons, ih]

end Platform

namespace Platform

/-- Python `strip()` never lengthens a string. -/
theorem pyStrip_length_le (l : List Char) : (pyStrip l).length ≤ l.length := by
  unfold pyStrip
  have h1 : (List.dropWhile pyIsSpace ((List.dropWhile pyIsSpace l).reverse)).length ≤
      ((List.dropWhile pyIsSpace l).reverse).length :=
    List.Sublist.length_le (List.dropWhile_sublist _)
  have h2 : (List.dropWhile pyIsSpace l).length ≤ l.length :=
    List.Sublist.length_le (List.dropWhile_sublist _)
  simp only [List.length_reverse] at h1 ⊢
  exact le_trans h1 h2

/-- Invariant of the sentence loop: if every remaining sentence is at most `L`
long, every accumulated chunk and the running `current` stay within
`max maxLen L`, and they still do when the loop finishes. -/
theorem chunkFold_bound (maxLen L : ℕ) :
    ∀ (ss : List (List Char)) (chunks : List (List Char)) (current : List Char),
    (∀ s ∈ ss, s.length ≤ L) →
    (∀ c ∈ chunks, c.length ≤ max maxLen L) →
    current.length ≤ max maxLen L →
    (∀ c ∈ (ss.foldl (chunkStep maxLen) (chunks, current)).1,
      c.length ≤ max maxLen L) ∧
    (ss.foldl (chunkStep maxLen) (chunks, current)).2.length ≤ max maxLen L := by
  intro ss
  induction ss with
  | nil => exact fun chunks current _ hch hcur => ⟨hch, hcur⟩
  | cons s rest ih =>
    intro chunks current hss hch hcur
    have hsL : s.length ≤ L := hss s (List.mem_cons_self s rest)
    have hrest : ∀ t ∈ rest, t.length ≤ L :=
      fun t ht => hss t (List.mem_cons_of_mem _ ht)
    rw [List.foldl_cons]
    unfold chunkStep
    by_cases hover : maxLen < current.length + s.length + 2
    · rw [if_pos hover]
      by_cases hcur0 : current = []
      · rw [if_neg (not_not_intro hcur0)]
        exact ih chunks s hrest hch (le_trans hsL (le_max_right _ _))
      · rw [if_pos hcur0]
        refine ih _ s hrest ?_ (le_trans hsL (le_max_right _ _))
        intro c hc
        rcases List.mem_append.mp hc with hc | hc
        · exact hch c hc
        · rw [List.mem_singleton.mp hc]
          exact le_trans (pyStrip_length_le current) hcur
    · rw [if_neg hover]
      push_neg at hover
      by_cases hcur0 : current = []
      · rw [if_neg (not_not_intro hcur0)]
        exact ih chunks s hrest hch (le_trans hsL (le_max_right _ _))
      · rw [if_pos hcur0]
        refine ih chunks _ hrest hch ?_
        have hjoin : (current ++ '.' :: ' ' :: s).length =
            current.length + s.length + 2 := by
          simp [List.length_append]
          ring
        rw [hjoin]
        exact le_trans hover (le_max_left _ _)

/-- C2 (amended): every chunk of `_chunk_text(text, 512)` has length at most
`max 512 L`, where `L` is the length of the longest sentence (the pieces of
the `". "` split after newline replacement).  A single sentence longer than
512 characters is emitted whole — the `text[:512]` hard cut only applies when
no chunk was produced at all — so 512 alone does not bound the chunks. -/
theorem chunk_text_length_bound (text : List Char) (c : List Char)
    (hc : c ∈ _chunk_text text 512) :
    c.length ≤ max 512 (maxSentenceLen text) := by
  unfold _chunk_text at hc
  by_cases hlen : text.length ≤ 512
  · rw [if_pos hlen] at hc
    rw [List.mem_singleton.mp hc]
    exact le_trans hlen (le_max_left _ _)
  · rw [if_neg hlen] at hc
    simp only at hc
    have hsent : ∀ s ∈ splitDotSpace (text.map replNl),
        s.length ≤ maxSentenceLen text := by
      intro s hs
      exact List.le_max_of_le (List.mem_map_of_mem List.length hs) le_rfl
    have hfold := chunkFold_bound 512 (maxSentenceLen text)
      (splitDotSpace (text.map replNl)) [] [] hsent (by simp) (by simp)
    set R := (splitDotSpace (text.map replNl)).foldl (chunkStep 512) ([], [])
      with hR
    by_cases hstrip : pyStrip R.2 ≠ []
    · rw [if_pos hstrip] at hc
      have hne : R.1 ++ [pyStrip R.2] ≠ [] := by simp
      rw [if_pos hne] at hc
      rcases List.mem_append.mp hc with hc | hc
      · exact hfold.1 c hc
      · rw [List.mem_singleton.mp hc]
        exact le_trans (pyStrip_length_le R.2) hfold.2
    · rw [if_neg hstrip] at hc
      by_cases hchunks : R.1 ≠ []
      · rw [if_pos hchunks] at hc
        exact hfold.1 c hc
      · rw [if_neg hchunks] at hc
        rw [List.mem_singleton.mp hc]
        exact le_trans (List.length_take_le 512 text) (le_max_left _ _)

end Platform

namespace Platform

set_option maxRecDepth 4000 in
/-- A 513-character single "sentence" is returned as one over-long chunk: the
`". "` split finds no boundary and the final `current` is appended whole; the
`text[:512]` fallback is dead because `chunks` is non-empty. -/
theorem chunk_text_513_eval :
    _chunk_text (List.replicate 513 'a') 512 = [List.replicate 513 'a'] := by
  decide

/-- C2 (counterexample): on 513 copies of `'a'`, `_chunk_text(text, 512)`
returns a single chunk of length 513 > 512, refuting the ≤ 512 bound. -/
theorem chunk_text_512_counterexample :
    ¬ (∀ c ∈ _chunk_text (List.replicate 513 'a') 512, c.length ≤ 512) := by
  intro hall
  have h := hall (List.replicate 513 'a')
    (by rw [chunk_text_513_eval]; exact List.mem_singleton.mpr rfl)
  rw [List.length_replicate] at h
  omega

/-- C2 witness: the amended bound applied to the 513-character chunk. -/
theorem chunk_text_length_bound_witness :
    List.replicate 513 'a' ∈ _chunk_text (List.replicate 513 'a') 512 ∧
    (List.replicate 513 'a').length ≤
      max 512 (maxSentenceLen (List.replicate 513 'a')) :=
  have hmem : List.replicate 513 'a' ∈ _chunk_text (List.replicate 513 'a') 512 := by
    rw [chunk_text_513_eval]
    exact List.mem_singleton.mpr rfl
  ⟨hmem, chunk_text_length_bound _ _ hmem⟩

end Platform

namespace Platform

/-- Replacing the point stored under `k` does not change how many points carry
id `k`. -/
theorem countP_map_replace (k : String) (p : VPoint)
    (l : List (String × VPoint)) :
    (l.map (fun kv => if kv.1 = k then (k, p) else kv)).countP
        (fun kv => kv.1 = k) =
      l.countP (fun kv => kv.1 = k) := by
  induction l with
  | nil => rfl
  | cons kv rest ih =>
    by_cases hk : kv.1 = k
    · simp [List.countP_cons, hk, ih]
    · simp [List.countP_cons, hk, ih]

/-- After an upsert, exactly one point carries the upserted id (given the
collection held at most one beforehand, as Qdrant point ids are unique). -/
theorem upsert_countP_eq_one (coll : List (String × VPoint)) (k : String)
    (p : VPoint) (h : coll.countP (fun kv => kv.1 = k) ≤ 1) :
    (upsert_embedding coll k p).countP (fun kv => kv.1 = k) = 1 := by
  unfold upsert_embedding
  by_cases hany : coll.any (fun kv => kv.1 = k)
  · rw [if_pos hany]
    rw [countP_map_replace]
    have hpos : 0 < coll.countP (fun kv => kv.1 = k) := by
      rw [List.countP_pos_iff]
      rcases List.any_eq_true.mp hany with ⟨kv, hkv, hp⟩
      exact ⟨kv, hkv, hp⟩
    omega
  · rw [if_neg hany]
    rw [List.countP_append]
    have h0 : coll.countP (fun kv => kv.1 = k) = 0 := by
      rw [List.countP_eq_zero]
      intro kv hkv
      exact fun hp => hany (List.any_eq_true.mpr ⟨kv, hkv, hp⟩)
    simp [h0, List.countP_cons]

/-- A collection without the id is unchanged by the replace map. -/
theorem map_replace_of_not_mem (k : String) (p : VPoint)
    (l : List (String × VPoint)) (h : l.any (fun kv => kv.1 = k) = false) :
    l.map (fun kv => if kv.1 = k then (k, p) else kv) = l := by
  induction l with
  | nil => rfl
  | cons kv rest ih =>
    rw [List.any_cons] at h
    rcases Bool.or_eq_false_iff.mp h with ⟨h1, h2⟩
    simp only [List.map_cons, ih h2, List.cons.injEq, and_true]
    rw [if_neg (by simpa using h1)]

/-- Upserting the same point twice equals upserting it once: the second write
overwrites the first in place. -/
theorem upsert_embedding_idem (coll : List (String × VPoint)) (k : String)
    (p : VPoint) :
    upsert_embedding (upsert_embedding coll k p) k p =
      upsert_embedding coll k p := by
  by_cases hany : coll.any (fun kv => kv.1 = k)
  · have hinner : upsert_embedding coll k p =
        coll.map (fun kv => if kv.1 = k then (k, p) else kv) := by
      rw [upsert_embedding, if_pos hany]
    rcases List.any_eq_true.mp hany with ⟨kv, hkv, hp⟩
    have hany2 : (coll.map (fun kv => if kv.1 = k then (k, p) else kv)).any
        (fun kv => kv.1 = k) = true := by
      refine List.any_eq_true.mpr ⟨(k, p), ?_, by simp⟩
      refine List.mem_map.mpr ⟨kv, hkv, ?_⟩
      rw [if_pos (by simpa using hp)]
    rw [hinner, upsert_embedding, if_pos hany2, List.map_map]
    refine List.map_congr_left ?_
    intro kv' _
    by_cases hk : kv'.1 = k
    · simp [Function.comp, hk]
    · simp [Function.comp, hk]
  · have hinner : upsert_embedding coll k p = coll ++ [(k, p)] := by
      rw [upsert_embedding, if_neg hany]
    have hany2 : (coll ++ [(k, p)]).any (fun kv => kv.1 = k) = true :=
      List.any_eq_true.mpr ⟨(k, p), by simp, by simp⟩
    rw [hinner, upsert_embedding, if_pos hany2, List.map_append,
      map_replace_of_not_mem k p coll (Bool.eq_false_iff.mpr (by simpa using hany))]
    simp

/-- Shape of one successful run of the CLIP task on an image. -/
theorem run_clip_embedding_image (encode_image encode_video : String → List ℚ)
    (media_id project_id storage_path : String) (st : ClipTaskState) :
    (run_clip_embedding encode_image encode_video media_id project_id
        storage_path "image" st).1 =
      ⟨upsert_embedding st.clip_collection ("clip_" ++ media_id)
          ⟨encode_image storage_path, media_id, project_id, "image"⟩,
        { st.media with clip_embedding_id := some ("clip_" ++ media_id) }⟩ := by
  simp [run_clip_embedding, _update_media_embedding]

/-- C8: running the CLIP enrichment task twice on the same image media is
idempotent.  Provided point ids are unique beforehand (at most one point holds
the id), after the second run the CLIP collection holds exactly one point with
id `clip_{media_id}`, the whole state equals the state after the first run —
so every media field, `rest` included, is unchanged — and
`clip_embedding_id` stays `clip_{media_id}`. -/
theorem run_clip_embedding_idempotent
    (encode_image encode_video : String → List ℚ)
    (media_id project_id storage_path : String) (st0 : ClipTaskState)
    (h : st0.clip_collection.countP
      (fun kv => kv.1 = "clip_" ++ media_id) ≤ 1) :
    (run_clip_embedding encode_image encode_video media_id project_id
        storage_path "image"
        (run_clip_embedding encode_image encode_video media_id project_id
          storage_path "image" st0).1).1 =
      (run_clip_embedding encode_image encode_video media_id project_id
        storage_path "image" st0).1 ∧
    (run_clip_embedding encode_image encode_video media_id project_id
        storage_path "image"
        (run_clip_embedding encode_image encode_video media_id project_id
          storage_path "image" st0).1).1.clip_collection.countP
        (fun kv => kv.1 = "clip_" ++ media_id) = 1 ∧
    (run_clip_embedding encode_image encode_video media_id project_id
        storage_path "image"
        (run_clip_embedding encode_image encode_video media_id project_id
          storage_path "image" st0).1).1.media.clip_embedding_id =
      some ("clip_" ++ media_id) := by
  rw [run_clip_embedding_image, run_clip_embedding_image]
  refine ⟨?_, ?_, rfl⟩
  · rw [upsert_embedding_idem]
  · rw [upsert_embedding_idem]
    exact upsert_countP_eq_one _ _ _ h

/-- C8 witness: the idempotence theorem at an empty collection and a fresh
media row. -/
theorem run_clip_embedding_idempotent_witness :
    (run_clip_embedding (fun _ => [1]) (fun _ => [1]) "m" "p" "s" "image"
        (run_clip_embedding (fun _ => [1]) (fun _ => [1]) "m" "p" "s" "image"
          ⟨[], ⟨none, []⟩⟩).1).1 =
      (run_clip_embedding (fun _ => [1]) (fun _ => [1]) "m" "p" "s" "image"
        ⟨[], ⟨none, []⟩⟩).1 ∧
    (run_clip_embedding (fun _ => [1]) (fun _ => [1]) "m" "p" "s" "image"
        (run_clip_embedding (fun _ => [1]) (fun _ => [1]) "m" "p" "s" "image"
          ⟨[], ⟨none, []⟩⟩).1).1.clip_collection.countP
        (fun kv => kv.1 = "clip_" ++ "m") = 1 ∧
    (run_clip_embedding (fun _ => [1]) (fun _ => [1]) "m" "p" "s" "image"
        (run_clip_embedding (fun _ => [1]) (fun _ => [1]) "m" "p" "s" "image"
          ⟨[], ⟨none, []⟩⟩).1).1.media.clip_embedding_id =
      some ("clip_" ++ "m") :=
  run_clip_embedding_idempotent (fun _ => [1]) (fun _ => [1]) "m" "p" "s"
    ⟨[], ⟨none, []⟩⟩ (by decide)

end Platform
